import Mathlib

/-!
Shallow embedding of the trading engine of `services/tradingEngine.js`
(the class `TradingEngine` and the helper `calculateSMA`).

Conventions of the embedding:
* JS numbers are modelled as exact rationals (`ℚ`); timestamps as `ℤ`.
* `undefined` results are modelled with `Option`; JS truthiness of a
  possibly-undefined number (`!x`, `x ? _ : _`, `x && _`) is modelled by
  `truthy`, which is false for `none` and for `some 0` (0 is falsy in JS).
* The two `setInterval` handles are modelled as booleans recording whether
  the timer is set.
* The live price fetch (`coinbaseService.getPrice`) is an external
  collaborator; each call site receives its outcome as a `FetchResult`
  argument.  Notification and order-placement calls are external
  fire-and-forget sinks with no effect on engine state and are not modelled.
* In the source the constructor sets `account: null`; `start` always
  assigns an account before any tick can read it, so the embedding uses a
  zero account as the initial value.
-/

inductive TradeType where
  | BUY
  | SELL
deriving DecidableEq, Repr

structure Trade where
  id : ℕ
  type : TradeType
  price : ℚ
  time : ℤ
  amount : ℚ
  reason : String
deriving DecidableEq, Repr

structure Account where
  base : ℚ
  quote : ℚ
deriving DecidableEq, Repr

structure PricePoint where
  time : ℤ
  price : ℚ
deriving DecidableEq, Repr

structure ChartPoint where
  time : ℤ
  price : ℚ
  fastMA : Option ℚ
  slowMA : Option ℚ
  riskLine : Option ℚ
deriving DecidableEq, Repr

/-- Default chart point, used only for guarded (in-bounds) list accesses. -/
def cpDefault : ChartPoint := ⟨0, 0, none, none, none⟩

structure Settings where
  tradingPair : String
  dipsSensitivity : ℚ
  riskLevel : ℚ
  stopLossPercentage : ℚ
  sellTriggerPercentage : ℚ
  initialBalance : ℚ
  tradeAmountPercentage : ℚ
  maxConcurrentPositions : ℕ
  enablePeriodicMessages : Bool
  isTested : Bool
deriving DecidableEq, Repr

structure EngineState where
  isRunning : Bool
  settings : Option Settings
  account : Account
  trades : List Trade
  openPositions : List Trade
  currentPrice : ℚ
  chartData : List ChartPoint
  backtestData : Option (List PricePoint)
  backtestIndex : ℕ
  tradeIdCounter : ℕ
  startPrice : ℚ
  lowestAccountValue : ℚ
  highestAccountValue : ℚ
  isLive : Bool
  isProcessingTick : Bool
  tradingInterval : Bool
  periodicTelegramInterval : Bool
deriving DecidableEq, Repr

/-- Outcome of one call to the external live price source
(`coinbaseService.getPrice`). -/
inductive FetchResult where
  | success (price : ℚ) (time : ℤ)
  | failure
deriving DecidableEq, Repr

/-- The constructor of `TradingEngine`. -/
def initialEngineState : EngineState :=
  { isRunning := false
    settings := none
    account := ⟨0, 0⟩
    trades := []
    openPositions := []
    currentPrice := 0
    chartData := []
    backtestData := none
    backtestIndex := 0
    tradeIdCounter := 0
    startPrice := 0
    lowestAccountValue := 0
    highestAccountValue := 0
    isLive := false
    isProcessingTick := false
    tradingInterval := false
    periodicTelegramInterval := false }

/-- JS truthiness of a possibly-undefined number: `undefined` and `0` are
falsy, every other number is truthy. -/
def truthy : Option ℚ → Bool
  | none => false
  | some x => x != 0

/-- `calculateSMA` of `tradingEngine.js`.  `data.slice(-period)` keeps the
last `period` elements, except that `slice(-0)` is `slice(0)`, i.e. the whole
array. -/
def calculateSMA (data : List ℚ) (period : ℕ) (minPoints : ℕ) : Option ℚ :=
  if data.length < minPoints then none
  else
    let slice := if period = 0 then data else data.drop (data.length - period)
    some ((slice.foldl (· + ·) 0) / (slice.length : ℚ))

/-- `array.slice(-n)` for `n > 0`: the last `n` elements. -/
def takeLast (n : ℕ) (l : List α) : List α := l.drop (l.length - n)

/-- The per-position scan of `_executeSellLogic` (lines 158-175): walk the
open positions in FIFO order and return the first one whose stop-loss or
sell-trigger condition fires, together with the reason and its index. -/
def scanSell (stg : Settings) (newPrice : ℚ) : List Trade → ℕ → Option (Trade × String × ℕ)
  | [], _ => none
  | pos :: rest, i =>
    let stopLossPrice := pos.price * (1 - stg.stopLossPercentage / 100)
    let sellTriggerPrice := pos.price * (1 + stg.sellTriggerPercentage / 100)
    if newPrice ≤ stopLossPrice then some (pos, "Stop Loss", i)
    else if stg.sellTriggerPercentage > 0 ∧ newPrice ≥ sellTriggerPrice then
      some (pos, "Sell Trigger", i)
    else scanSell stg newPrice rest (i + 1)

/-- The selection phase of `_executeSellLogic` (the mutable `positionToSell`
/ `reasonForSale` / `positionIndex` triple at the end of lines 153-182): the
per-position scan, then the MACD-crossover fallback on the oldest open
position. -/
def chooseSell (positions : List Trade) (stg : Settings) (newPrice : ℚ)
    (fastMA slowMA prevFastMA prevSlowMA : ℚ) : Option (Trade × String × ℕ) :=
  match scanSell stg newPrice positions 0 with
  | some r => some r
  | none =>
    if fastMA < slowMA ∧ prevFastMA ≥ prevSlowMA ∧ 0 < positions.length then
      positions.head?.map (fun p => (p, "MACD Crossover", 0))
    else none

/-- `_executeSellLogic`: the selection phase, then execution of the chosen
sell (lines 185-217). -/
def executeSellLogic (s : EngineState) (stg : Settings) (newPrice : ℚ) (newTime : ℤ)
    (fastMA slowMA prevFastMA prevSlowMA : ℚ) : EngineState :=
  match chooseSell s.openPositions stg newPrice fastMA slowMA prevFastMA prevSlowMA with
  | none => s
  | some (pos, reason, idx) =>
    let sellAmount := pos.amount
    let sellTrade : Trade :=
      ⟨s.tradeIdCounter, TradeType.SELL, newPrice, newTime, sellAmount, reason⟩
    { s with
      account := ⟨s.account.base - sellAmount, s.account.quote + sellAmount * newPrice⟩
      trades := s.trades ++ [sellTrade]
      openPositions := s.openPositions.eraseIdx idx
      tradeIdCounter := s.tradeIdCounter + 1 }

/-- `_executeBuyLogic`: bullish MACD crossover, position-capacity check,
risk-line check, and the dust guard; on success append the BUY trade to both
the open positions and the trade log. -/
def executeBuyLogic (s : EngineState) (stg : Settings) (newPrice : ℚ) (newTime : ℤ)
    (fastMA slowMA prevFastMA prevSlowMA : ℚ) (riskLine : Option ℚ) : EngineState :=
  if fastMA > slowMA ∧ prevFastMA ≤ prevSlowMA ∧
      s.openPositions.length < stg.maxConcurrentPositions then
    if truthy riskLine ∧ newPrice < riskLine.getD 0 then
      let tradeAmountQuote := s.account.quote * (stg.tradeAmountPercentage / 100)
      if s.account.quote ≥ tradeAmountQuote ∧ tradeAmountQuote > 1 then
        let buyAmount := tradeAmountQuote / newPrice
        let buyTrade : Trade :=
          ⟨s.tradeIdCounter, TradeType.BUY, newPrice, newTime, buyAmount, "MACD Crossover"⟩
        { s with
          account := ⟨s.account.base + buyAmount, s.account.quote - tradeAmountQuote⟩
          openPositions := s.openPositions ++ [buyTrade]
          trades := s.trades ++ [buyTrade]
          tradeIdCounter := s.tradeIdCounter + 1 }
      else s
    else s
  else s

/-- `stop()`: no-op unless running; otherwise clear the running flag and
both timers. -/
def stop (s : EngineState) : EngineState :=
  if s.isRunning = false then s
  else
    { s with isRunning := false, tradingInterval := false,
             periodicTelegramInterval := false }

/-- The indicator block of `executeTick` (lines 95-116): the appended price
history, the sensitivity-derived fast/slow SMA periods, the fixed-period
market average with relaxed minimum, the risk line (subject to JS
truthiness of `marketAverage`), and the previous fast/slow MA read from the
second-to-last stored chart point.  Returns
`(fastMA, slowMA, riskLine, prevFastMA, prevSlowMA)`. -/
def computeIndicators (chartData : List ChartPoint) (stg : Settings) (newPrice : ℚ) :
    Option ℚ × Option ℚ × Option ℚ × Option ℚ × Option ℚ :=
  let priceHistory := chartData.map (fun p => p.price) ++ [newPrice]
  let fastPeriod := (round ((5 : ℚ) + (100 - stg.dipsSensitivity) * (45 / 100))).toNat
  let slowPeriod := (round ((15 : ℚ) + (100 - stg.dipsSensitivity) * (85 / 100))).toNat
  let fastMA := calculateSMA priceHistory fastPeriod fastPeriod
  let slowMA := calculateSMA priceHistory slowPeriod slowPeriod
  let riskPeriod : ℕ := 50
  let marketAverage := calculateSMA priceHistory riskPeriod 10
  let riskLine : Option ℚ :=
    if truthy marketAverage then
      some (marketAverage.getD 0 * (1 + (stg.riskLevel - 50) / 200))
    else none
  let prevFastMA : Option ℚ :=
    if 1 < chartData.length then
      (chartData.getD (chartData.length - 2) cpDefault).fastMA
    else none
  let prevSlowMA : Option ℚ :=
    if 1 < chartData.length then
      (chartData.getD (chartData.length - 2) cpDefault).slowMA
    else none
  (fastMA, slowMA, riskLine, prevFastMA, prevSlowMA)

/-- The account-value watermark update of `executeTick` (lines 131-138). -/
def updateWatermarks (s : EngineState) (newPrice : ℚ) : EngineState :=
  let accountValue := s.account.quote + s.account.base * newPrice
  let s1 := if accountValue < s.lowestAccountValue then
      { s with lowestAccountValue := accountValue } else s
  if s1.highestAccountValue < accountValue then
    { s1 with highestAccountValue := accountValue } else s1

/-- The end-of-tick reset of the in-flight flag (lines 142-144); the source
performs it only when `backtestData` is `null`. -/
def resetFlagIfLive (s : EngineState) : EngineState :=
  if s.backtestData = none then { s with isProcessingTick := false } else s

/-- The body of `executeTick` after a price has been acquired (lines
95-144): indicators, chart update, warm-up gate, sell then buy logic,
account-value watermarks, and the final in-flight-flag reset. -/
def tickCore (s : EngineState) (stg : Settings) (newPrice : ℚ) (newTime : ℤ) : EngineState :=
  let ind := computeIndicators s.chartData stg newPrice
  let fastMA := ind.1
  let slowMA := ind.2.1
  let riskLine := ind.2.2.1
  let prevFastMA := ind.2.2.2.1
  let prevSlowMA := ind.2.2.2.2
  let newPoint : ChartPoint := ⟨newTime, newPrice, fastMA, slowMA, riskLine⟩
  let s1 := { s with chartData := takeLast 500 (s.chartData ++ [newPoint]),
                     currentPrice := newPrice }
  if truthy fastMA && truthy slowMA && truthy prevFastMA && truthy prevSlowMA then
    let s2 := executeSellLogic s1 stg newPrice newTime (fastMA.getD 0) (slowMA.getD 0)
      (prevFastMA.getD 0) (prevSlowMA.getD 0)
    let s3 := executeBuyLogic s2 stg newPrice newTime (fastMA.getD 0) (slowMA.getD 0)
      (prevFastMA.getD 0) (prevSlowMA.getD 0) riskLine
    resetFlagIfLive (updateWatermarks s3 newPrice)
  else s1

/-- The live branch of `executeTick` (lines 80-93): the in-flight guard, the
price fetch, and the error path that resets the guard and skips the tick. -/
def liveTick (s : EngineState) (stg : Settings) (fetch : FetchResult) : EngineState :=
  if s.isProcessingTick then s
  else
    let s1 := { s with isProcessingTick := true }
    match fetch with
    | FetchResult.failure => { s1 with isProcessingTick := false }
    | FetchResult.success newPrice newTime => tickCore s1 stg newPrice newTime

/-- `executeTick()`: guard on running/settings, then acquire one price
(backtest by index — stopping on exhaustion — or live via the fetch), then
`tickCore`.  The backtest branch is taken exactly when `backtestData` is a
non-null, non-empty array. -/
def executeTick (s : EngineState) (fetch : FetchResult) : EngineState :=
  if s.isRunning = false then s
  else
    match s.settings with
    | none => s
    | some stg =>
      match s.backtestData with
      | some data =>
        if 0 < data.length then
          if data.length ≤ s.backtestIndex then stop s
          else
            let point := data.getD s.backtestIndex ⟨0, 0⟩
            tickCore { s with backtestIndex := s.backtestIndex + 1 } stg
              point.price point.time
        else liveTick s stg fetch
      | none => liveTick s stg fetch

/-- `start(settings, backtestData, isLive)`: no-op if already running;
reset account, logs and counters; seed price and chart either from the
first backtest point (when the series is non-null and non-empty) or from a
live fetch, aborting the start (with the resets already applied) when the
fetch fails; then set the running flag and the timers. -/
def start (s : EngineState) (stg : Settings) (backtestData : Option (List PricePoint))
    (isLive : Bool) (fetch : FetchResult) : EngineState :=
  if s.isRunning then s
  else
    let s1 := { s with
      settings := some stg
      backtestData := backtestData
      backtestIndex := 0
      account := ⟨0, stg.initialBalance⟩
      trades := []
      openPositions := []
      tradeIdCounter := 0
      lowestAccountValue := stg.initialBalance
      highestAccountValue := stg.initialBalance }
    let data := backtestData.getD []
    if 0 < data.length then
      let p := data.getD 0 ⟨0, 0⟩
      let s2 := { s1 with currentPrice := p.price, startPrice := p.price, chartData := [] }
      { s2 with isRunning := true, isLive := isLive, tradingInterval := true,
                periodicTelegramInterval := stg.enablePeriodicMessages && stg.isTested }
    else
      match fetch with
      | FetchResult.failure => s1
      | FetchResult.success price time =>
        let s2 := { s1 with currentPrice := price, startPrice := price,
                            chartData := [⟨time, price, none, none, none⟩] }
        { s2 with isRunning := true, isLive := isLive, tradingInterval := true,
                  periodicTelegramInterval := stg.enablePeriodicMessages && stg.isTested }

/-- A partial settings object, as passed to `updateSettings`: absent fields
are left unchanged by the shallow merge. -/
structure SettingsPatch where
  tradingPair : Option String := none
  dipsSensitivity : Option ℚ := none
  riskLevel : Option ℚ := none
  stopLossPercentage : Option ℚ := none
  sellTriggerPercentage : Option ℚ := none
  initialBalance : Option ℚ := none
  tradeAmountPercentage : Option ℚ := none
  maxConcurrentPositions : Option ℕ := none
  enablePeriodicMessages : Option Bool := none
  isTested : Option Bool := none
deriving DecidableEq, Repr

/-- The shallow merge `{...settings, ...newSettings}`. -/
def applyPatch (old : Settings) (p : SettingsPatch) : Settings :=
  { tradingPair := p.tradingPair.getD old.tradingPair
    dipsSensitivity := p.dipsSensitivity.getD old.dipsSensitivity
    riskLevel := p.riskLevel.getD old.riskLevel
    stopLossPercentage := p.stopLossPercentage.getD old.stopLossPercentage
    sellTriggerPercentage := p.sellTriggerPercentage.getD old.sellTriggerPercentage
    initialBalance := p.initialBalance.getD old.initialBalance
    tradeAmountPercentage := p.tradeAmountPercentage.getD old.tradeAmountPercentage
    maxConcurrentPositions := p.maxConcurrentPositions.getD old.maxConcurrentPositions
    enablePeriodicMessages := p.enablePeriodicMessages.getD old.enablePeriodicMessages
    isTested := p.isTested.getD old.isTested }

/-- `updateSettings(newSettings)`: shallow merge while running, no effect
when idle.  (While running, `settings` is always set by `start`.) -/
def updateSettings (s : EngineState) (p : SettingsPatch) : EngineState :=
  if s.isRunning then
    match s.settings with
    | some old => { s with settings := some (applyPatch old p) }
    | none => s
  else s

/-- Iterate `executeTick` with a fixed fetch outcome. -/
def iterTick (fetch : FetchResult) : ℕ → EngineState → EngineState
  | 0, s => s
  | n + 1, s => iterTick fetch n (executeTick s fetch)


/-! ## Conditions and invariants used in the statements -/

/-- The invariant behind per-run uniqueness of trade ids: the trade log's
ids are strictly increasing and all below the id counter. -/
def tradeIdOk (trs : List Trade) (cnt : ℕ) : Prop :=
  trs.Pairwise (fun a b => a.id < b.id) ∧ ∀ tr ∈ trs, tr.id < cnt

/-- The stop-loss condition of the per-position scan (line 163). -/
def hitsStopLoss (stg : Settings) (p : ℚ) (pos : Trade) : Bool :=
  p ≤ pos.price * (1 - stg.stopLossPercentage / 100)

/-- The sell-trigger condition of the per-position scan (line 169),
including the `sellTriggerPercentage > 0` enable check. -/
def hitsSellTrigger (stg : Settings) (p : ℚ) (pos : Trade) : Bool :=
  stg.sellTriggerPercentage > 0 && p ≥ pos.price * (1 + stg.sellTriggerPercentage / 100)


/-! ## Concrete scenarios used by the claim theorems -/

/-- Baseline settings: sensitivity 100 (fast period 5, slow period 15),
risk level 90, stop loss 5%, sell trigger disabled, balance 1000, trade
size 10%, at most 2 concurrent positions. -/
def stgFlat : Settings :=
  { tradingPair := "BTC-EUR", dipsSensitivity := 100, riskLevel := 90,
    stopLossPercentage := 5, sellTriggerPercentage := 0, initialBalance := 1000,
    tradeAmountPercentage := 10, maxConcurrentPositions := 2,
    enablePeriodicMessages := false, isTested := false }

/-- Fifteen flat chart points at price 100 with both MAs stored as 100. -/
def flatChart : List ChartPoint :=
  (List.range 15).map (fun i => ⟨(i : ℤ), 100, some 100, some 100, none⟩)

def stgC1 : Settings :=
  { stgFlat with tradeAmountPercentage := 50, maxConcurrentPositions := 1 }

/-- An open position entered at 200, far above the current price, so its
5% stop loss fires at price 101. -/
def posC1 : Trade := ⟨0, TradeType.BUY, 200, 0, 1, "MACD Crossover"⟩

/-- A running backtest state whose next tick (price 101) both triggers the
stop loss of `posC1` and a bullish MACD crossover under the risk line. -/
def cexC1 : EngineState :=
  { initialEngineState with
    isRunning := true
    settings := some stgC1
    account := ⟨1, 1000⟩
    openPositions := [posC1]
    chartData := flatChart
    backtestData := some [⟨16, 101⟩]
    backtestIndex := 0 }

/-- Chart history whose second-to-last point has `fastMA > slowMA`, so a
drop to 99 produces a bearish MACD crossover. -/
def chartX : List ChartPoint :=
  (List.range 13).map (fun i => (⟨(i : ℤ), 100, some 100, some 100, none⟩ : ChartPoint))
    ++ [⟨13, 100, some 101, some 100, none⟩, ⟨14, 100, some 100, some 100, none⟩]

/-- A running backtest state whose next tick (price 99) closes the open
position with reason "MACD Crossover". -/
def cexC1b : EngineState :=
  { initialEngineState with
    isRunning := true
    settings := some stgFlat
    account := ⟨1, 1000⟩
    openPositions := [⟨0, TradeType.BUY, 100, 0, 1, "MACD Crossover"⟩]
    chartData := chartX
    backtestData := some [⟨16, 99⟩]
    backtestIndex := 0 }

def stgC2 : Settings :=
  { stgFlat with sellTriggerPercentage := 10, maxConcurrentPositions := 1 }

/-- First position in FIFO order: entered at 100, its 10% sell trigger
fires at price 110, its stop loss does not. -/
def posA : Trade := ⟨0, TradeType.BUY, 100, 0, 1, "MACD Crossover"⟩

/-- Second position in FIFO order: entered at 200, its 5% stop loss fires
at price 110. -/
def posB : Trade := ⟨1, TradeType.BUY, 200, 0, 1, "MACD Crossover"⟩

/-- A running backtest state whose next tick has price 110: `posA`
qualifies only for the sell trigger, `posB` qualifies for the stop loss. -/
def cexC2 : EngineState :=
  { initialEngineState with
    isRunning := true
    settings := some stgC2
    account := ⟨2, 1000⟩
    openPositions := [posA, posB]
    chartData := flatChart
    backtestData := some [⟨16, 110⟩]
    backtestIndex := 0 }

/-- A replay series producing a BUY on tick 19 and a second BUY on tick 22
with no sell in between (the fast and slow MAs meet exactly at tick 20, so
no bearish crossover fires). -/
def dataC4 : List PricePoint :=
  ((List.range 15).map (fun i => (⟨(i : ℤ), 100⟩ : PricePoint)))
    ++ [⟨15, 101⟩, ⟨16, 99⟩, ⟨17, 101⟩, ⟨18, 100⟩, ⟨19, 99⟩, ⟨20, 102⟩, ⟨21, 100⟩, ⟨22, 100⟩]

def startC4 : EngineState :=
  start initialEngineState stgFlat (some dataC4) false FetchResult.failure

/-- A settings update lowering `maxConcurrentPositions` to 1. -/
def patchC4 : SettingsPatch := { maxConcurrentPositions := some 1 }

/-- Run the backtest to two open positions, lower the cap to 1 while
running, then execute one more tick. -/
def runC4 : EngineState :=
  executeTick (updateSettings (iterTick FetchResult.failure 22 startC4) patchC4)
    FetchResult.failure

/-- A replay series of length 19 whose run produces exactly one BUY
(tick 19) and then exhausts. -/
def dataC8 : List PricePoint :=
  ((List.range 15).map (fun i => (⟨(i : ℤ), 100⟩ : PricePoint)))
    ++ [⟨15, 101⟩, ⟨16, 99⟩, ⟨17, 101⟩, ⟨18, 100⟩]

/-- First full run: start, 19 processed ticks, auto-stop on tick 20. -/
def runA : EngineState :=
  iterTick FetchResult.failure 20
    (start initialEngineState stgFlat (some dataC8) false FetchResult.failure)

/-- Second full run of the same engine after the first one stopped. -/
def runB : EngineState :=
  iterTick FetchResult.failure 20 (start runA stgFlat (some dataC8) false FetchResult.failure)

/-- A live session directly after `start`: one seeded chart point, in-flight
flag clear. -/
def liveWarm : EngineState :=
  start initialEngineState stgFlat none false (FetchResult.success 100 0)

def sBuyW : EngineState := { initialEngineState with account := ⟨0, 1000⟩ }

def sSellW : EngineState :=
  { initialEngineState with
    account := ⟨1, 0⟩
    openPositions := [⟨5, TradeType.BUY, 200, 0, 1, "MACD Crossover"⟩] }

def dataW5 : List PricePoint := [⟨1, 100⟩]

def s0W5 : EngineState :=
  start initialEngineState stgFlat (some dataW5) false FetchResult.failure

/-! ## General lemmas about the engine operations -/

theorem foldl_add_from (l : List ℚ) : ∀ a : ℚ, l.foldl (· + ·) a = a + l.sum := by
  induction l with
  | nil => intro a; simp
  | cons x t ih => intro a; simp [List.foldl_cons, ih, List.sum_cons]; ring

theorem executeSellLogic_none (s : EngineState) (stg : Settings) (p : ℚ) (t : ℤ)
    (f sl pf ps : ℚ)
    (h : chooseSell s.openPositions stg p f sl pf ps = none) :
    executeSellLogic s stg p t f sl pf ps = s := by
  simp [executeSellLogic, h]

theorem executeSellLogic_some (s : EngineState) (stg : Settings) (p : ℚ) (t : ℤ)
    (f sl pf ps : ℚ) (pos : Trade) (reason : String) (idx : ℕ)
    (h : chooseSell s.openPositions stg p f sl pf ps = some (pos, reason, idx)) :
    executeSellLogic s stg p t f sl pf ps =
      { s with
        account := ⟨s.account.base - pos.amount, s.account.quote + pos.amount * p⟩
        trades := s.trades ++ [⟨s.tradeIdCounter, TradeType.SELL, p, t, pos.amount, reason⟩]
        openPositions := s.openPositions.eraseIdx idx
        tradeIdCounter := s.tradeIdCounter + 1 } := by
  simp [executeSellLogic, h]

theorem chooseSell_cases (positions : List Trade) (stg : Settings) (p : ℚ)
    (f sl pf ps : ℚ) (pos : Trade) (reason : String) (idx : ℕ)
    (h : chooseSell positions stg p f sl pf ps = some (pos, reason, idx)) :
    scanSell stg p positions 0 = some (pos, reason, idx) ∨
      (scanSell stg p positions 0 = none ∧ f < sl ∧ pf ≥ ps ∧
        positions.head? = some pos ∧ reason = "MACD Crossover" ∧ idx = 0) := by
  unfold chooseSell at h
  cases hscan : scanSell stg p positions 0 with
  | some r => rw [hscan] at h; exact Or.inl (by simpa using h)
  | none =>
    rw [hscan] at h
    dsimp only at h
    by_cases hm : f < sl ∧ pf ≥ ps ∧ 0 < positions.length
    · rw [if_pos hm] at h
      obtain ⟨q, hq, he⟩ := Option.map_eq_some'.mp h
      simp only [Prod.mk.injEq] at he
      refine Or.inr ⟨rfl, hm.1, hm.2.1, ?_, he.2.1.symm, he.2.2.symm⟩
      rw [hq, he.1]
    · rw [if_neg hm] at h; exact absurd h (by simp)

theorem scanSell_reason (stg : Settings) (p : ℚ) :
    ∀ (l : List Trade) (i : ℕ) (pos : Trade) (reason : String) (idx : ℕ),
      scanSell stg p l i = some (pos, reason, idx) →
      reason = "Stop Loss" ∨ reason = "Sell Trigger" := by
  intro l
  induction l with
  | nil => intro i pos reason idx h; simp [scanSell] at h
  | cons a rest ih =>
    intro i pos reason idx h
    unfold scanSell at h
    dsimp only at h
    split at h
    · simp at h; exact Or.inl h.2.1.symm
    · split at h
      · simp at h; exact Or.inr h.2.1.symm
      · exact ih _ pos reason idx h

theorem executeBuyLogic_cases (s : EngineState) (stg : Settings) (p : ℚ) (t : ℤ)
    (f sl pf ps : ℚ) (rl : Option ℚ) :
    executeBuyLogic s stg p t f sl pf ps rl = s ∨
    (f > sl ∧ pf ≤ ps ∧ s.openPositions.length < stg.maxConcurrentPositions ∧
      truthy rl = true ∧ p < rl.getD 0 ∧
      s.account.quote ≥ s.account.quote * (stg.tradeAmountPercentage / 100) ∧
      s.account.quote * (stg.tradeAmountPercentage / 100) > 1 ∧
      executeBuyLogic s stg p t f sl pf ps rl =
        { s with
          account := ⟨s.account.base + s.account.quote * (stg.tradeAmountPercentage / 100) / p,
                      s.account.quote - s.account.quote * (stg.tradeAmountPercentage / 100)⟩
          openPositions := s.openPositions ++
            [⟨s.tradeIdCounter, TradeType.BUY, p, t,
              s.account.quote * (stg.tradeAmountPercentage / 100) / p, "MACD Crossover"⟩]
          trades := s.trades ++
            [⟨s.tradeIdCounter, TradeType.BUY, p, t,
              s.account.quote * (stg.tradeAmountPercentage / 100) / p, "MACD Crossover"⟩]
          tradeIdCounter := s.tradeIdCounter + 1 }) := by
  unfold executeBuyLogic
  dsimp only
  split
  · rename_i h1
    split
    · rename_i h2
      split
      · rename_i h3
        exact Or.inr ⟨h1.1, h1.2.1, h1.2.2, h2.1, h2.2, h3.1, h3.2, rfl⟩
      · exact Or.inl rfl
    · exact Or.inl rfl
  · exact Or.inl rfl

@[simp] theorem executeSellLogic_isRunning (s : EngineState) (stg : Settings) (p : ℚ) (t : ℤ)
    (f sl pf ps : ℚ) : (executeSellLogic s stg p t f sl pf ps).isRunning = s.isRunning := by
  unfold executeSellLogic; split <;> rfl

@[simp] theorem executeSellLogic_settings (s : EngineState) (stg : Settings) (p : ℚ) (t : ℤ)
    (f sl pf ps : ℚ) : (executeSellLogic s stg p t f sl pf ps).settings = s.settings := by
  unfold executeSellLogic; split <;> rfl

@[simp] theorem executeSellLogic_backtestData (s : EngineState) (stg : Settings) (p : ℚ) (t : ℤ)
    (f sl pf ps : ℚ) : (executeSellLogic s stg p t f sl pf ps).backtestData = s.backtestData := by
  unfold executeSellLogic; split <;> rfl

@[simp] theorem executeSellLogic_backtestIndex (s : EngineState) (stg : Settings) (p : ℚ) (t : ℤ)
    (f sl pf ps : ℚ) : (executeSellLogic s stg p t f sl pf ps).backtestIndex = s.backtestIndex := by
  unfold executeSellLogic; split <;> rfl

@[simp] theorem executeBuyLogic_isRunning (s : EngineState) (stg : Settings) (p : ℚ) (t : ℤ)
    (f sl pf ps : ℚ) (rl : Option ℚ) :
    (executeBuyLogic s stg p t f sl pf ps rl).isRunning = s.isRunning := by
  unfold executeBuyLogic; dsimp only; repeat' split
  all_goals rfl

@[simp] theorem executeBuyLogic_settings (s : EngineState) (stg : Settings) (p : ℚ) (t : ℤ)
    (f sl pf ps : ℚ) (rl : Option ℚ) :
    (executeBuyLogic s stg p t f sl pf ps rl).settings = s.settings := by
  unfold executeBuyLogic; dsimp only; repeat' split
  all_goals rfl

@[simp] theorem executeBuyLogic_backtestData (s : EngineState) (stg : Settings) (p : ℚ) (t : ℤ)
    (f sl pf ps : ℚ) (rl : Option ℚ) :
    (executeBuyLogic s stg p t f sl pf ps rl).backtestData = s.backtestData := by
  unfold executeBuyLogic; dsimp only; repeat' split
  all_goals rfl

@[simp] theorem executeBuyLogic_backtestIndex (s : EngineState) (stg : Settings) (p : ℚ) (t : ℤ)
    (f sl pf ps : ℚ) (rl : Option ℚ) :
    (executeBuyLogic s stg p t f sl pf ps rl).backtestIndex = s.backtestIndex := by
  unfold executeBuyLogic; dsimp only; repeat' split
  all_goals rfl

@[simp] theorem updateWatermarks_isRunning (s : EngineState) (p : ℚ) :
    (updateWatermarks s p).isRunning = s.isRunning := by
  unfold updateWatermarks; dsimp only; repeat' split
  all_goals rfl

@[simp] theorem updateWatermarks_settings (s : EngineState) (p : ℚ) :
    (updateWatermarks s p).settings = s.settings := by
  unfold updateWatermarks; dsimp only; repeat' split
  all_goals rfl

@[simp] theorem updateWatermarks_backtestData (s : EngineState) (p : ℚ) :
    (updateWatermarks s p).backtestData = s.backtestData := by
  unfold updateWatermarks; dsimp only; repeat' split
  all_goals rfl

@[simp] theorem updateWatermarks_backtestIndex (s : EngineState) (p : ℚ) :
    (updateWatermarks s p).backtestIndex = s.backtestIndex := by
  unfold updateWatermarks; dsimp only; repeat' split
  all_goals rfl

@[simp] theorem updateWatermarks_trades (s : EngineState) (p : ℚ) :
    (updateWatermarks s p).trades = s.trades := by
  unfold updateWatermarks; dsimp only; repeat' split
  all_goals rfl

@[simp] theorem updateWatermarks_openPositions (s : EngineState) (p : ℚ) :
    (updateWatermarks s p).openPositions = s.openPositions := by
  unfold updateWatermarks; dsimp only; repeat' split
  all_goals rfl

@[simp] theorem updateWatermarks_tradeIdCounter (s : EngineState) (p : ℚ) :
    (updateWatermarks s p).tradeIdCounter = s.tradeIdCounter := by
  unfold updateWatermarks; dsimp only; repeat' split
  all_goals rfl

@[simp] theorem resetFlagIfLive_isRunning (s : EngineState) :
    (resetFlagIfLive s).isRunning = s.isRunning := by
  unfold resetFlagIfLive; split <;> rfl

@[simp] theorem resetFlagIfLive_settings (s : EngineState) :
    (resetFlagIfLive s).settings = s.settings := by
  unfold resetFlagIfLive; split <;> rfl

@[simp] theorem resetFlagIfLive_backtestData (s : EngineState) :
    (resetFlagIfLive s).backtestData = s.backtestData := by
  unfold resetFlagIfLive; split <;> rfl

@[simp] theorem resetFlagIfLive_backtestIndex (s : EngineState) :
    (resetFlagIfLive s).backtestIndex = s.backtestIndex := by
  unfold resetFlagIfLive; split <;> rfl

@[simp] theorem resetFlagIfLive_trades (s : EngineState) :
    (resetFlagIfLive s).trades = s.trades := by
  unfold resetFlagIfLive; split <;> rfl

@[simp] theorem resetFlagIfLive_openPositions (s : EngineState) :
    (resetFlagIfLive s).openPositions = s.openPositions := by
  unfold resetFlagIfLive; split <;> rfl

@[simp] theorem resetFlagIfLive_tradeIdCounter (s : EngineState) :
    (resetFlagIfLive s).tradeIdCounter = s.tradeIdCounter := by
  unfold resetFlagIfLive; split <;> rfl

@[simp] theorem tickCore_isRunning (s : EngineState) (stg : Settings) (p : ℚ) (t : ℤ) :
    (tickCore s stg p t).isRunning = s.isRunning := by
  unfold tickCore; dsimp only; split
  all_goals simp

@[simp] theorem tickCore_settings (s : EngineState) (stg : Settings) (p : ℚ) (t : ℤ) :
    (tickCore s stg p t).settings = s.settings := by
  unfold tickCore; dsimp only; split
  all_goals simp

@[simp] theorem tickCore_backtestData (s : EngineState) (stg : Settings) (p : ℚ) (t : ℤ) :
    (tickCore s stg p t).backtestData = s.backtestData := by
  unfold tickCore; dsimp only; split
  all_goals simp

@[simp] theorem tickCore_backtestIndex (s : EngineState) (stg : Settings) (p : ℚ) (t : ℤ) :
    (tickCore s stg p t).backtestIndex = s.backtestIndex := by
  unfold tickCore; dsimp only; split
  all_goals simp

@[simp] theorem stop_settings (s : EngineState) : (stop s).settings = s.settings := by
  unfold stop; split <;> rfl

@[simp] theorem stop_backtestData (s : EngineState) : (stop s).backtestData = s.backtestData := by
  unfold stop; split <;> rfl

@[simp] theorem stop_backtestIndex (s : EngineState) : (stop s).backtestIndex = s.backtestIndex := by
  unfold stop; split <;> rfl

@[simp] theorem stop_trades (s : EngineState) : (stop s).trades = s.trades := by
  unfold stop; split <;> rfl

@[simp] theorem stop_openPositions (s : EngineState) : (stop s).openPositions = s.openPositions := by
  unfold stop; split <;> rfl

@[simp] theorem stop_account (s : EngineState) : (stop s).account = s.account := by
  unfold stop; split <;> rfl

@[simp] theorem stop_tradeIdCounter (s : EngineState) : (stop s).tradeIdCounter = s.tradeIdCounter := by
  unfold stop; split <;> rfl

@[simp] theorem stop_chartData (s : EngineState) : (stop s).chartData = s.chartData := by
  unfold stop; split <;> rfl

@[simp] theorem stop_currentPrice (s : EngineState) : (stop s).currentPrice = s.currentPrice := by
  unfold stop; split <;> rfl

theorem liveTick_shape (s : EngineState) (stg : Settings) (fetch : FetchResult) :
    liveTick s stg fetch = s ∨
    liveTick s stg fetch = { s with isProcessingTick := false } ∨
    ∃ p t, liveTick s stg fetch = tickCore { s with isProcessingTick := true } stg p t := by
  unfold liveTick
  split
  · exact Or.inl rfl
  · cases fetch with
    | failure => exact Or.inr (Or.inl rfl)
    | success p t => exact Or.inr (Or.inr ⟨p, t, rfl⟩)

set_option maxHeartbeats 1000000 in
theorem executeTick_shape (s : EngineState) (fetch : FetchResult) :
    executeTick s fetch = s ∨
    executeTick s fetch = stop s ∨
    executeTick s fetch = { s with isProcessingTick := false } ∨
    ∃ (s0 : EngineState) (stg : Settings) (p : ℚ) (t : ℤ),
      s.settings = some stg ∧
      s0.trades = s.trades ∧ s0.openPositions = s.openPositions ∧
      s0.tradeIdCounter = s.tradeIdCounter ∧ s0.account = s.account ∧
      s0.settings = s.settings ∧
      executeTick s fetch = tickCore s0 stg p t := by
  unfold executeTick
  split
  · exact Or.inl rfl
  · split
    · exact Or.inl rfl
    · rename_i stg hstg
      split
      · rename_i data hdata
        split
        · split
          · exact Or.inr (Or.inl rfl)
          · exact Or.inr (Or.inr (Or.inr
              ⟨{ s with backtestIndex := s.backtestIndex + 1 }, stg,
                (data.getD s.backtestIndex ⟨0, 0⟩).price, (data.getD s.backtestIndex ⟨0, 0⟩).time,
                hstg, rfl, rfl, rfl, rfl, rfl, rfl⟩))
        · rcases liveTick_shape s stg fetch with h | h | ⟨p, t, h⟩
          · exact Or.inl h
          · exact Or.inr (Or.inr (Or.inl h))
          · exact Or.inr (Or.inr (Or.inr
              ⟨{ s with isProcessingTick := true }, stg, p, t, hstg, rfl, rfl, rfl, rfl, rfl, h⟩))
      · rcases liveTick_shape s stg fetch with h | h | ⟨p, t, h⟩
        · exact Or.inl h
        · exact Or.inr (Or.inr (Or.inl h))
        · exact Or.inr (Or.inr (Or.inr
            ⟨{ s with isProcessingTick := true }, stg, p, t, hstg, rfl, rfl, rfl, rfl, rfl, h⟩))

set_option maxHeartbeats 1000000 in
theorem tickCore_trade_data (s : EngineState) (stg : Settings) (p : ℚ) (t : ℤ) :
    ((tickCore s stg p t).trades = s.trades ∧
     (tickCore s stg p t).openPositions = s.openPositions ∧
     (tickCore s stg p t).tradeIdCounter = s.tradeIdCounter) ∨
    ∃ (s1 : EngineState) (f sl pf ps : ℚ) (rl : Option ℚ),
      s1.trades = s.trades ∧ s1.openPositions = s.openPositions ∧
      s1.tradeIdCounter = s.tradeIdCounter ∧ s1.account = s.account ∧
      (tickCore s stg p t).trades =
        (executeBuyLogic (executeSellLogic s1 stg p t f sl pf ps) stg p t f sl pf ps rl).trades ∧
      (tickCore s stg p t).openPositions =
        (executeBuyLogic (executeSellLogic s1 stg p t f sl pf ps) stg p t f sl pf ps rl).openPositions ∧
      (tickCore s stg p t).tradeIdCounter =
        (executeBuyLogic (executeSellLogic s1 stg p t f sl pf ps) stg p t f sl pf ps rl).tradeIdCounter := by
  unfold tickCore
  dsimp only
  split
  · right
    refine ⟨{ s with
        chartData := takeLast 500 (s.chartData ++
          [⟨t, p, (computeIndicators s.chartData stg p).1,
            (computeIndicators s.chartData stg p).2.1,
            (computeIndicators s.chartData stg p).2.2.1⟩])
        currentPrice := p },
      (computeIndicators s.chartData stg p).1.getD 0,
      (computeIndicators s.chartData stg p).2.1.getD 0,
      (computeIndicators s.chartData stg p).2.2.2.1.getD 0,
      (computeIndicators s.chartData stg p).2.2.2.2.getD 0,
      (computeIndicators s.chartData stg p).2.2.1,
      rfl, rfl, rfl, rfl, ?_, ?_, ?_⟩ <;> simp
  · left; exact ⟨rfl, rfl, rfl⟩

theorem iterTick_succ (fetch : FetchResult) (n : ℕ) (s : EngineState) :
    iterTick fetch (n + 1) s = executeTick (iterTick fetch n s) fetch := by
  induction n generalizing s with
  | zero => rfl
  | succ m ih => rw [iterTick, ih]; rfl
@[simp] theorem stop_isRunning (s : EngineState) : (stop s).isRunning = false := by
  unfold stop; split
  · rename_i h; exact h
  · rfl

/-- Claim C3: `calculateSMA` returns absent exactly when the series is
shorter than `minPoints`, and otherwise returns the arithmetic mean of the
last `period` elements (the mean over all available elements when
`minPoints ≤ length < period`); in particular `sma([1,2,3,4,5],3) = 4`,
`sma([1,2],3)` is absent, and `sma([1,2],3,minPoints:=2) = 1.5`. -/
theorem sma_spec_all :
    (∀ (data : List ℚ) (period minPoints : ℕ),
        calculateSMA data period minPoints = none ↔ data.length < minPoints)
    ∧ (∀ (data : List ℚ) (period minPoints : ℕ), 1 ≤ period →
        minPoints ≤ data.length → period ≤ data.length →
        calculateSMA data period minPoints
          = some ((data.drop (data.length - period)).sum / (period : ℚ)))
    ∧ (∀ (data : List ℚ) (period minPoints : ℕ), 1 ≤ period →
        minPoints ≤ data.length → data.length < period →
        calculateSMA data period minPoints = some (data.sum / (data.length : ℚ)))
    ∧ calculateSMA [1, 2, 3, 4, 5] 3 3 = some 4
    ∧ calculateSMA [1, 2] 3 3 = none
    ∧ calculateSMA [1, 2] 3 2 = some (3 / 2) := by
  refine ⟨?_, ?_, ?_, ?_, ?_, ?_⟩
  · intro data period minPoints
    by_cases h : data.length < minPoints
    · simp [calculateSMA, h]
    · simp [calculateSMA, h]
  · intro data period minPoints h1 h2 h3
    have hnp : ¬ data.length < minPoints := not_lt.mpr h2
    have hp0 : ¬ period = 0 := by omega
    unfold calculateSMA
    rw [if_neg hnp]
    dsimp only
    rw [if_neg hp0]
    have hlen : (data.drop (data.length - period)).length = period := by
      rw [List.length_drop]; omega
    rw [foldl_add_from, zero_add, hlen]
  · intro data period minPoints h1 h2 h3
    have hnp : ¬ data.length < minPoints := not_lt.mpr h2
    have hp0 : ¬ period = 0 := by omega
    unfold calculateSMA
    rw [if_neg hnp]
    dsimp only
    rw [if_neg hp0]
    have hz : data.length - period = 0 := by omega
    rw [hz, List.drop_zero, foldl_add_from, zero_add]
  · norm_num [calculateSMA]
  · norm_num [calculateSMA]
  · norm_num [calculateSMA]

/-- Claim C10: `stop()` is idempotent — `stop (stop s) = stop s` for every
engine state — and calling `stop()` while already idle is a no-op that does
not modify the state. -/
theorem stop_idempotent_noop :
    (∀ s : EngineState, stop (stop s) = stop s)
    ∧ (∀ s : EngineState, s.isRunning = false → stop s = s) := by
  constructor
  · intro s
    by_cases h : s.isRunning = false
    · simp [stop, h]
    · simp [stop, h]
  · intro s h; simp [stop, h]

theorem executeTick_backtest_inrange (s : EngineState) (stg : Settings) (data : List PricePoint)
    (fetch : FetchResult) (hrun : s.isRunning = true) (hstg : s.settings = some stg)
    (hbd : s.backtestData = some data) (hlt : s.backtestIndex < data.length) :
    executeTick s fetch =
      tickCore { s with backtestIndex := s.backtestIndex + 1 } stg
        (data.getD s.backtestIndex ⟨0, 0⟩).price (data.getD s.backtestIndex ⟨0, 0⟩).time := by
  have h1 : 0 < data.length := by omega
  have h2 : ¬ data.length ≤ s.backtestIndex := by omega
  simp [executeTick, hrun, hstg, hbd, h1, h2]

theorem executeTick_backtest_exhausted (s : EngineState) (stg : Settings) (data : List PricePoint)
    (fetch : FetchResult) (hrun : s.isRunning = true) (hstg : s.settings = some stg)
    (hbd : s.backtestData = some data) (hN : 0 < data.length)
    (hge : data.length ≤ s.backtestIndex) :
    executeTick s fetch = stop s := by
  simp [executeTick, hrun, hstg, hbd, hN, hge]

/-- Claim C5: starting a backtest run on a series of length `N ≥ 1`, the
engine processes exactly the `N` in-range points (after `k ≤ N` ticks the
engine is still running with `backtestIndex = k`), and on tick `N + 1` it
auto-stops via `stop` without consuming a price: the trade log, chart and
current price are unchanged by the stopping tick, and no out-of-bounds read
occurs (the exhaustion branch returns before any array access). -/
theorem backtest_processes_N_then_stops (s0 : EngineState) (stg : Settings)
    (data : List PricePoint) (fetch : FetchResult)
    (hrun : s0.isRunning = true) (hstg : s0.settings = some stg)
    (hbd : s0.backtestData = some data) (hN : 1 ≤ data.length)
    (hidx : s0.backtestIndex = 0) :
    (∀ k, k ≤ data.length →
      (iterTick fetch k s0).isRunning = true ∧
      (iterTick fetch k s0).settings = some stg ∧
      (iterTick fetch k s0).backtestData = some data ∧
      (iterTick fetch k s0).backtestIndex = k) ∧
    iterTick fetch (data.length + 1) s0 = stop (iterTick fetch data.length s0) ∧
    (iterTick fetch (data.length + 1) s0).isRunning = false ∧
    (iterTick fetch (data.length + 1) s0).backtestIndex = data.length ∧
    (iterTick fetch (data.length + 1) s0).trades = (iterTick fetch data.length s0).trades ∧
    (iterTick fetch (data.length + 1) s0).chartData
      = (iterTick fetch data.length s0).chartData ∧
    (iterTick fetch (data.length + 1) s0).currentPrice
      = (iterTick fetch data.length s0).currentPrice := by
  have main : ∀ k, k ≤ data.length →
      (iterTick fetch k s0).isRunning = true ∧
      (iterTick fetch k s0).settings = some stg ∧
      (iterTick fetch k s0).backtestData = some data ∧
      (iterTick fetch k s0).backtestIndex = k := by
    intro k
    induction k with
    | zero => intro _; exact ⟨hrun, hstg, hbd, hidx⟩
    | succ m ih =>
      intro hm
      have hmle : m ≤ data.length := by omega
      obtain ⟨i1, i2, i3, i4⟩ := ih hmle
      have hlt : (iterTick fetch m s0).backtestIndex < data.length := by omega
      rw [iterTick_succ,
        executeTick_backtest_inrange (iterTick fetch m s0) stg data fetch i1 i2 i3 hlt]
      refine ⟨?_, ?_, ?_, ?_⟩
      · rw [tickCore_isRunning]; exact i1
      · rw [tickCore_settings]; exact i2
      · rw [tickCore_backtestData]; exact i3
      · rw [tickCore_backtestIndex]; dsimp only; rw [i4]
  have hNfacts := main data.length (le_refl _)
  have hstp : iterTick fetch (data.length + 1) s0 = stop (iterTick fetch data.length s0) := by
    rw [iterTick_succ]
    exact executeTick_backtest_exhausted _ stg data fetch hNfacts.1 hNfacts.2.1 hNfacts.2.2.1
      (by omega) (by omega)
  refine ⟨main, hstp, ?_, ?_, ?_, ?_, ?_⟩
  · rw [hstp]; exact stop_isRunning _
  · rw [hstp, stop_backtestIndex]; exact hNfacts.2.2.2
  · rw [hstp, stop_trades]
  · rw [hstp, stop_chartData]
  · rw [hstp, stop_currentPrice]
theorem sell_buy_appended (s1 : EngineState) (stg : Settings) (p : ℚ) (t : ℤ)
    (f sl pf ps : ℚ) (rl : Option ℚ) :
    ∃ app : List Trade,
      (executeBuyLogic (executeSellLogic s1 stg p t f sl pf ps) stg p t f sl pf ps rl).trades
        = s1.trades ++ app ∧
      (app = [] ∨
        (∃ tr, app = [tr] ∧ tr.type = TradeType.BUY) ∨
        (∃ tr, app = [tr] ∧ tr.type = TradeType.SELL) ∨
        (∃ trS trB, app = [trS, trB] ∧ trS.type = TradeType.SELL ∧
          trB.type = TradeType.BUY ∧ trS.reason ≠ "MACD Crossover")) := by
  cases hc : chooseSell s1.openPositions stg p f sl pf ps with
  | none =>
    rw [executeSellLogic_none s1 stg p t f sl pf ps hc]
    rcases executeBuyLogic_cases s1 stg p t f sl pf ps rl with heqb |
      ⟨hf, _, _, _, _, _, _, heqb⟩
    · exact ⟨[], by rw [heqb]; simp, Or.inl rfl⟩
    · refine ⟨[⟨s1.tradeIdCounter, TradeType.BUY, p, t,
        s1.account.quote * (stg.tradeAmountPercentage / 100) / p, "MACD Crossover"⟩],
        by rw [heqb], Or.inr (Or.inl ⟨_, rfl, rfl⟩)⟩
  | some r =>
    obtain ⟨pos, reason, idx⟩ := r
    have heqs := executeSellLogic_some s1 stg p t f sl pf ps pos reason idx hc
    rcases executeBuyLogic_cases (executeSellLogic s1 stg p t f sl pf ps) stg p t f sl pf ps rl
      with heqb | ⟨hf, _, _, _, _, _, _, heqb⟩
    · refine ⟨[⟨s1.tradeIdCounter, TradeType.SELL, p, t, pos.amount, reason⟩],
        by rw [heqb, heqs], Or.inr (Or.inr (Or.inl ⟨_, rfl, rfl⟩))⟩
    · have hreason : reason = "Stop Loss" ∨ reason = "Sell Trigger" := by
        rcases chooseSell_cases s1.openPositions stg p f sl pf ps pos reason idx hc with
          hscan | ⟨_, hflt, _, _, _, _⟩
        · exact scanSell_reason stg p s1.openPositions 0 pos reason idx hscan
        · exact absurd hf (by simp [not_lt]; exact le_of_lt hflt)
      refine ⟨[⟨s1.tradeIdCounter, TradeType.SELL, p, t, pos.amount, reason⟩,
        ⟨(executeSellLogic s1 stg p t f sl pf ps).tradeIdCounter, TradeType.BUY, p, t,
          (executeSellLogic s1 stg p t f sl pf ps).account.quote *
            (stg.tradeAmountPercentage / 100) / p, "MACD Crossover"⟩],
        ?_, Or.inr (Or.inr (Or.inr ⟨_, _, rfl, rfl, rfl, ?_⟩))⟩
      · rw [heqb, heqs]; simp [heqs]
      · rcases hreason with h | h <;> simp [h]

/-- Claim C1 (amended): sell checks run before buy checks, and when the
tick closes a position with reason "MACD Crossover" no BUY trade is
appended in the same tick (the bearish and bullish crossover conditions are
mutually exclusive).  A close by "Stop Loss" or "Sell Trigger", however,
does not prevent a buy in the same tick — see the counterexample. -/
theorem macd_sell_excludes_buy (s : EngineState) (fetch : FetchResult)
    (h : ∃ tr ∈ (executeTick s fetch).trades.drop s.trades.length,
        tr.type = TradeType.SELL ∧ tr.reason = "MACD Crossover") :
    ∀ tr ∈ (executeTick s fetch).trades.drop s.trades.length, tr.type ≠ TradeType.BUY := by
  rcases executeTick_shape s fetch with he | he | he |
    ⟨s0, stg, p, t, hstg, ht0, _, _, _, _, he⟩
  · intro tr htr; rw [he, List.drop_length] at htr; simp at htr
  · intro tr htr; rw [he, stop_trades, List.drop_length] at htr; simp at htr
  · intro tr htr; rw [he] at htr; dsimp only at htr
    rw [List.drop_length] at htr; simp at htr
  · rcases tickCore_trade_data s0 stg p t with ⟨ht2, _, _⟩ |
      ⟨s1, f, sl, pf, ps, rl, h1t, _, _, _, htr2, _, _⟩
    · intro tr htr; rw [he, ht2, ht0, List.drop_length] at htr; simp at htr
    · obtain ⟨app, happ, hcases⟩ := sell_buy_appended s1 stg p t f sl pf ps rl
      have htr3 : (executeTick s fetch).trades = s.trades ++ app := by
        rw [he, htr2, happ, h1t, ht0]
      have happD : (executeTick s fetch).trades.drop s.trades.length = app := by
        rw [htr3, List.drop_left]
      rw [happD] at h ⊢
      rcases hcases with rfl | ⟨tr1, rfl, hb⟩ | ⟨tr1, rfl, hs⟩ |
        ⟨trS, trB, rfl, hS, hB, hnm⟩
      · intro tr htr; simp at htr
      · obtain ⟨tr, htr, hty, _⟩ := h
        simp at htr; subst htr; rw [hb] at hty; exact absurd hty (by simp)
      · intro tr htr; simp at htr; subst htr; rw [hs]; simp
      · obtain ⟨tr, htr, hty, hrs⟩ := h
        simp at htr
        rcases htr with rfl | rfl
        · exact absurd hrs hnm
        · rw [hB] at hty; exact absurd hty (by simp)
/-- Claim C7: every executed BUY changes the account by exactly
`Δquote = -amount*price` and `Δbase = +amount`, and every executed SELL by
exactly `Δquote = +amount*price` and `Δbase = -amount` (exact arithmetic),
so the trade mechanics never change the mark-to-market value at the
executed price. -/
theorem trade_conservation :
    (∀ (s : EngineState) (stg : Settings) (p : ℚ) (t : ℤ) (f sl pf ps : ℚ)
        (rl : Option ℚ) (tr : Trade), 0 < p →
        (executeBuyLogic s stg p t f sl pf ps rl).trades = s.trades ++ [tr] →
        tr.type = TradeType.BUY ∧ tr.price = p ∧
        (executeBuyLogic s stg p t f sl pf ps rl).account.quote
          = s.account.quote - tr.amount * p ∧
        (executeBuyLogic s stg p t f sl pf ps rl).account.base
          = s.account.base + tr.amount ∧
        (executeBuyLogic s stg p t f sl pf ps rl).account.quote
            + (executeBuyLogic s stg p t f sl pf ps rl).account.base * p
          = s.account.quote + s.account.base * p)
    ∧ (∀ (s : EngineState) (stg : Settings) (p : ℚ) (t : ℤ) (f sl pf ps : ℚ) (tr : Trade),
        (executeSellLogic s stg p t f sl pf ps).trades = s.trades ++ [tr] →
        tr.type = TradeType.SELL ∧ tr.price = p ∧
        (executeSellLogic s stg p t f sl pf ps).account.quote
          = s.account.quote + tr.amount * p ∧
        (executeSellLogic s stg p t f sl pf ps).account.base
          = s.account.base - tr.amount ∧
        (executeSellLogic s stg p t f sl pf ps).account.quote
            + (executeSellLogic s stg p t f sl pf ps).account.base * p
          = s.account.quote + s.account.base * p) := by
  constructor
  · intro s stg p t f sl pf ps rl tr hp h
    rcases executeBuyLogic_cases s stg p t f sl pf ps rl with heq | ⟨_, _, _, _, _, _, _, heq⟩
    · rw [heq] at h
      have := congrArg List.length h
      simp at this
    · rw [heq] at h
      dsimp only at h
      have htr : tr = ⟨s.tradeIdCounter, TradeType.BUY, p, t,
          s.account.quote * (stg.tradeAmountPercentage / 100) / p, "MACD Crossover"⟩ := by
        have := List.append_cancel_left h
        simpa using this.symm
      subst htr
      rw [heq]
      have hmul : s.account.quote * (stg.tradeAmountPercentage / 100) / p * p
          = s.account.quote * (stg.tradeAmountPercentage / 100) :=
        div_mul_cancel₀ _ (ne_of_gt hp)
      refine ⟨rfl, rfl, ?_, rfl, ?_⟩
      · dsimp only; rw [hmul]
      · dsimp only; rw [add_mul, hmul]; ring
  · intro s stg p t f sl pf ps tr h
    cases hc : chooseSell s.openPositions stg p f sl pf ps with
    | none =>
      rw [executeSellLogic_none s stg p t f sl pf ps hc] at h
      have := congrArg List.length h
      simp at this
    | some r =>
      obtain ⟨pos, reason, idx⟩ := r
      have heq := executeSellLogic_some s stg p t f sl pf ps pos reason idx hc
      rw [heq] at h
      dsimp only at h
      have htr : tr = ⟨s.tradeIdCounter, TradeType.SELL, p, t, pos.amount, reason⟩ := by
        have := List.append_cancel_left h
        simpa using this.symm
      subst htr
      rw [heq]
      refine ⟨rfl, rfl, rfl, rfl, ?_⟩
      dsimp only; ring

theorem executeSellLogic_openPositions_le (s : EngineState) (stg : Settings) (p : ℚ) (t : ℤ)
    (f sl pf ps : ℚ) :
    (executeSellLogic s stg p t f sl pf ps).openPositions.length
      ≤ s.openPositions.length := by
  unfold executeSellLogic
  split
  · exact le_refl _
  · exact List.length_eraseIdx_le _ _

theorem executeBuyLogic_openPositions_le (s : EngineState) (stg : Settings) (p : ℚ) (t : ℤ)
    (f sl pf ps : ℚ) (rl : Option ℚ)
    (h : s.openPositions.length ≤ stg.maxConcurrentPositions) :
    (executeBuyLogic s stg p t f sl pf ps rl).openPositions.length
      ≤ stg.maxConcurrentPositions := by
  rcases executeBuyLogic_cases s stg p t f sl pf ps rl with heq | ⟨_, _, hlt, _, _, _, _, heq⟩
    <;> rw [heq]
  · exact h
  · dsimp only; rw [List.length_append]; simpa using hlt

theorem tickCore_openPositions_le (s : EngineState) (stg : Settings) (p : ℚ) (t : ℤ)
    (h : s.openPositions.length ≤ stg.maxConcurrentPositions) :
    (tickCore s stg p t).openPositions.length ≤ stg.maxConcurrentPositions := by
  rcases tickCore_trade_data s stg p t with ⟨_, hop, _⟩ |
    ⟨s1, f, sl, pf, ps, rl, _, h1o, _, _, _, hop, _⟩
  · rw [hop]; exact h
  · rw [hop]
    apply executeBuyLogic_openPositions_le
    calc (executeSellLogic s1 stg p t f sl pf ps).openPositions.length
        ≤ s1.openPositions.length := executeSellLogic_openPositions_le s1 stg p t f sl pf ps
      _ = s.openPositions.length := by rw [h1o]
      _ ≤ stg.maxConcurrentPositions := h

/-- Claim C4 (amended): a tick preserves the position cap — if
`len(openPositions) ≤ maxConcurrentPositions` holds before `executeTick`,
it holds after, and the tick leaves the settings unchanged.  The unrestricted
invariant of the claim fails when `updateSettings` lowers
`maxConcurrentPositions` below the current open-position count while
running — see the counterexample. -/
theorem tick_preserves_position_cap (s : EngineState) (fetch : FetchResult) (stg : Settings)
    (hstg : s.settings = some stg)
    (h : s.openPositions.length ≤ stg.maxConcurrentPositions) :
    (executeTick s fetch).settings = some stg ∧
    (executeTick s fetch).openPositions.length ≤ stg.maxConcurrentPositions := by
  rcases executeTick_shape s fetch with he | he | he |
    ⟨s0, stg', p, t, hstg', _, hop, _, _, hset, he⟩
  · rw [he]; exact ⟨hstg, h⟩
  · rw [he]; constructor
    · rw [stop_settings]; exact hstg
    · rw [stop_openPositions]; exact h
  · rw [he]; exact ⟨hstg, h⟩
  · have hstgeq : stg' = stg := by
      rw [hstg] at hstg'
      injection hstg' with hv
      exact hv.symm
    subst hstgeq
    rw [he]
    constructor
    · rw [tickCore_settings, hset, hstg]
    · exact tickCore_openPositions_le s0 stg' p t (by rw [hop]; exact h)

theorem tradeIdOk_append (trs : List Trade) (cnt : ℕ) (tr : Trade)
    (h : tradeIdOk trs cnt) (htr : tr.id = cnt) : tradeIdOk (trs ++ [tr]) (cnt + 1) := by
  obtain ⟨hp, hb⟩ := h
  constructor
  · rw [List.pairwise_append]
    refine ⟨hp, List.pairwise_singleton _ _, ?_⟩
    intro a ha b hbmem
    simp at hbmem; subst hbmem
    rw [htr]; exact hb a ha
  · intro x hx
    rcases List.mem_append.mp hx with hxx | hxx
    · exact Nat.lt_succ_of_lt (hb x hxx)
    · simp at hxx; subst hxx; omega

theorem executeSellLogic_tradeIdOk (s : EngineState) (stg : Settings) (p : ℚ) (t : ℤ)
    (f sl pf ps : ℚ) (h : tradeIdOk s.trades s.tradeIdCounter) :
    tradeIdOk (executeSellLogic s stg p t f sl pf ps).trades
      (executeSellLogic s stg p t f sl pf ps).tradeIdCounter := by
  cases hc : chooseSell s.openPositions stg p f sl pf ps with
  | none => rw [executeSellLogic_none s stg p t f sl pf ps hc]; exact h
  | some r =>
    obtain ⟨pos, reason, idx⟩ := r
    rw [executeSellLogic_some s stg p t f sl pf ps pos reason idx hc]
    exact tradeIdOk_append _ _ _ h rfl

theorem executeBuyLogic_tradeIdOk (s : EngineState) (stg : Settings) (p : ℚ) (t : ℤ)
    (f sl pf ps : ℚ) (rl : Option ℚ) (h : tradeIdOk s.trades s.tradeIdCounter) :
    tradeIdOk (executeBuyLogic s stg p t f sl pf ps rl).trades
      (executeBuyLogic s stg p t f sl pf ps rl).tradeIdCounter := by
  rcases executeBuyLogic_cases s stg p t f sl pf ps rl with heq | ⟨_, _, _, _, _, _, _, heq⟩
    <;> rw [heq]
  · exact h
  · exact tradeIdOk_append _ _ _ h rfl

theorem executeTick_tradeIdOk (s : EngineState) (fetch : FetchResult)
    (h : tradeIdOk s.trades s.tradeIdCounter) :
    tradeIdOk (executeTick s fetch).trades (executeTick s fetch).tradeIdCounter := by
  rcases executeTick_shape s fetch with he | he | he |
    ⟨s0, stg, p, t, _, ht0, _, hc0, _, _, he⟩
  · rw [he]; exact h
  · rw [he]
    rw [stop_trades, stop_tradeIdCounter]; exact h
  · rw [he]; exact h
  · rw [he]
    rcases tickCore_trade_data s0 stg p t with ⟨hta, _, htc⟩ |
      ⟨s1, f, sl, pf, ps, rl, h1t, _, h1c, _, htr2, _, htc2⟩
    · rw [hta, htc, ht0, hc0]; exact h
    · rw [htr2, htc2]
      have h1 : tradeIdOk s1.trades s1.tradeIdCounter := by
        rw [h1t, h1c, ht0, hc0]; exact h
      exact executeBuyLogic_tradeIdOk _ _ _ _ _ _ _ _ _
        (executeSellLogic_tradeIdOk _ _ _ _ _ _ _ _ h1)

theorem start_resets_trades (s : EngineState) (stg : Settings)
    (bd : Option (List PricePoint)) (il : Bool) (f : FetchResult)
    (h : s.isRunning = false) :
    (start s stg bd il f).trades = [] ∧ (start s stg bd il f).tradeIdCounter = 0 := by
  unfold start
  rw [if_neg (by simp [h])]
  dsimp only
  split
  · exact ⟨rfl, rfl⟩
  · cases f with
    | failure => exact ⟨rfl, rfl⟩
    | success price time => exact ⟨rfl, rfl⟩

theorem scanSell_spec_aux (stg : Settings) (p : ℚ) :
    ∀ (l : List Trade) (i : ℕ),
      (scanSell stg p l i = none ↔
        ∀ pos ∈ l, hitsStopLoss stg p pos = false ∧ hitsSellTrigger stg p pos = false)
      ∧ (∀ pos reason idx, scanSell stg p l i = some (pos, reason, idx) →
          i ≤ idx ∧ idx - i < l.length ∧ l[idx - i]? = some pos ∧
          (hitsStopLoss stg p pos = true ∨ hitsSellTrigger stg p pos = true) ∧
          (∀ j, j < idx - i → ∀ q, l[j]? = some q →
            hitsStopLoss stg p q = false ∧ hitsSellTrigger stg p q = false) ∧
          reason = (if hitsStopLoss stg p pos = true then "Stop Loss" else "Sell Trigger")) := by
  intro l
  induction l with
  | nil =>
    intro i
    constructor
    · simp [scanSell]
    · intro pos reason idx h; simp [scanSell] at h
  | cons a rest ih =>
    intro i
    by_cases hsl : p ≤ a.price * (1 - stg.stopLossPercentage / 100)
    · have hexp : scanSell stg p (a :: rest) i = some (a, "Stop Loss", i) := by
        unfold scanSell; dsimp only; rw [if_pos hsl]
      constructor
      · rw [hexp]; simp [hitsStopLoss, hsl]
      · intro pos reason idx h
        rw [hexp] at h
        simp only [Option.some.injEq, Prod.mk.injEq] at h
        obtain ⟨h1, h2, h3⟩ := h
        subst h1; subst h2; subst h3
        have hta : hitsStopLoss stg p a = true := by simp [hitsStopLoss, hsl]
        refine ⟨le_refl _, by simp, by simp, Or.inl hta, ?_, ?_⟩
        · intro j hj; exact absurd hj (by omega)
        · rw [hta]; simp
    · by_cases hst : stg.sellTriggerPercentage > 0 ∧
        p ≥ a.price * (1 + stg.sellTriggerPercentage / 100)
      · have hexp : scanSell stg p (a :: rest) i = some (a, "Sell Trigger", i) := by
          unfold scanSell; dsimp only; rw [if_neg hsl, if_pos hst]
        constructor
        · rw [hexp]
          refine iff_of_false (by simp) ?_
          intro hall
          have := (hall a (List.mem_cons_self a rest)).2
          rw [hitsSellTrigger] at this
          simp [hst.1, hst.2] at this
        · intro pos reason idx h
          rw [hexp] at h
          simp only [Option.some.injEq, Prod.mk.injEq] at h
          obtain ⟨h1, h2, h3⟩ := h
          subst h1; subst h2; subst h3
          have hfa : hitsStopLoss stg p a = false := by simp [hitsStopLoss, hsl]
          refine ⟨le_refl _, by simp, by simp,
            Or.inr (by simp [hitsSellTrigger]; exact ⟨hst.1, hst.2⟩), ?_, ?_⟩
          · intro j hj; exact absurd hj (by omega)
          · rw [hfa]; simp
      · have hexp : scanSell stg p (a :: rest) i = scanSell stg p rest (i + 1) := by
          conv_lhs => unfold scanSell
          dsimp only
          rw [if_neg hsl, if_neg hst]
        have hafalse : hitsStopLoss stg p a = false ∧ hitsSellTrigger stg p a = false := by
          constructor
          · simp [hitsStopLoss, hsl]
          · simp [hitsSellTrigger]
            intro h0
            rcases not_and_or.mp hst with hx | hx
            · exact absurd h0 hx
            · exact lt_of_not_le (fun hle => hx hle)
        constructor
        · rw [hexp, (ih (i + 1)).1]
          constructor
          · intro hall pos hmem
            rcases List.mem_cons.mp hmem with rfl | hmem2
            · exact hafalse
            · exact hall pos hmem2
          · intro hall pos hmem
            exact hall pos (List.mem_cons_of_mem a hmem)
        · intro pos reason idx h
          rw [hexp] at h
          obtain ⟨j1, j2, j3, j4, j5, j6⟩ := (ih (i + 1)).2 pos reason idx h
          have hki : idx - i = (idx - (i + 1)) + 1 := by omega
          refine ⟨by omega, by simp; omega, ?_, j4, ?_, j6⟩
          · rw [hki]; simpa using j3
          · intro j hj q hq
            cases j with
            | zero => simp at hq; subst hq; exact hafalse
            | succ m =>
              have hm : m < idx - (i + 1) := by omega
              exact j5 m hm q (by simpa using hq)

/-- Claim C2 (amended): the per-position sell scan walks the open
positions in FIFO order and closes the first position that satisfies
either its own stop-loss or its own sell-trigger condition, with stop-loss
checked before sell-trigger for that same position; every earlier position
satisfies neither condition.  Stop-loss has priority only within a single
position, not across positions — see the counterexample. -/
theorem scanSell_first_match (stg : Settings) (p : ℚ) (l : List Trade) :
    (scanSell stg p l 0 = none ↔
      ∀ pos ∈ l, hitsStopLoss stg p pos = false ∧ hitsSellTrigger stg p pos = false)
    ∧ (∀ pos reason idx, scanSell stg p l 0 = some (pos, reason, idx) →
        idx < l.length ∧ l[idx]? = some pos ∧
        (hitsStopLoss stg p pos = true ∨ hitsSellTrigger stg p pos = true) ∧
        (∀ j, j < idx → ∀ q, l[j]? = some q →
          hitsStopLoss stg p q = false ∧ hitsSellTrigger stg p q = false) ∧
        reason = (if hitsStopLoss stg p pos = true then "Stop Loss" else "Sell Trigger")) := by
  obtain ⟨h1, h2⟩ := scanSell_spec_aux stg p l 0
  refine ⟨h1, ?_⟩
  intro pos reason idx h
  obtain ⟨j1, j2, j3, j4, j5, j6⟩ := h2 pos reason idx h
  rw [Nat.sub_zero] at j2 j3
  refine ⟨j2, j3, j4, ?_, j6⟩
  intro j hj q hq
  exact j5 j (by omega) q hq

/-- Claim C9 (amended): `start()` with an empty (length-zero) replay
series falls back to live mode: it performs an initial live price fetch,
fails the start when that fetch fails, and on success seeds the price and
chart from the fetched value; subsequent ticks take the live branch (a
failed live fetch skips the tick and the engine keeps running) instead of
treating the empty series as a zero-tick backtest. -/
theorem empty_replay_starts_live (s : EngineState) (stg : Settings) (il : Bool)
    (hidle : s.isRunning = false) :
    (start s stg (some []) il FetchResult.failure).isRunning = false ∧
    ∀ p t, (start s stg (some []) il (FetchResult.success p t)).isRunning = true ∧
      (start s stg (some []) il (FetchResult.success p t)).currentPrice = p ∧
      (start s stg (some []) il (FetchResult.success p t)).chartData
        = [⟨t, p, none, none, none⟩] ∧
      executeTick (start s stg (some []) il (FetchResult.success p t)) FetchResult.failure
        = start s stg (some []) il (FetchResult.success p t) := by
  constructor
  · simp [start, hidle]
  · intro p t
    refine ⟨by simp [start, hidle], by simp [start, hidle], by simp [start, hidle], ?_⟩
    by_cases hp : s.isProcessingTick
    · simp [start, hidle, executeTick, liveTick, hp]
    · simp [start, hidle, executeTick, liveTick, hp]

/-! ## Claim-level theorems: counterexamples, remaining claims, witnesses -/

set_option maxRecDepth 100000 in
/-- Claim C1, counterexample: a concrete tick in which the engine both
closes a position (a SELL with reason "Stop Loss") and appends a BUY trade,
refuting "a single tick either sells or buys but never both" for
stop-loss sells. -/
theorem sell_and_buy_same_tick_cex :
    cexC1.trades = [] ∧ cexC1.openPositions.length = 1 ∧
    ((executeTick cexC1 FetchResult.failure).trades.map (fun tr => (tr.type, tr.reason)))
      = [(TradeType.SELL, "Stop Loss"), (TradeType.BUY, "MACD Crossover")] := by
  with_unfolding_all decide

set_option maxRecDepth 100000 in
theorem macd_sell_excludes_buy_witness :
    Trade.type ⟨0, TradeType.SELL, 99, 16, 1, "MACD Crossover"⟩ ≠ TradeType.BUY :=
  macd_sell_excludes_buy cexC1b FetchResult.failure
    ⟨⟨0, TradeType.SELL, 99, 16, 1, "MACD Crossover"⟩, by with_unfolding_all decide,
      rfl, rfl⟩
    ⟨0, TradeType.SELL, 99, 16, 1, "MACD Crossover"⟩ (by with_unfolding_all decide)

set_option maxRecDepth 100000 in
/-- Claim C2, counterexample: with open positions `[posA, posB]` in FIFO
order, `posB` satisfies the stop-loss condition, yet the tick closes `posA`
with reason "Sell Trigger" — stop-loss does not have priority across
positions. -/
theorem stop_loss_not_global_priority_cex :
    hitsStopLoss stgC2 110 posB = true ∧
    cexC2.openPositions = [posA, posB] ∧
    ((executeTick cexC2 FetchResult.failure).trades.map
        (fun tr => (tr.type, tr.reason, tr.amount)))
      = [(TradeType.SELL, "Sell Trigger", posA.amount)] ∧
    (executeTick cexC2 FetchResult.failure).openPositions = [posB] := by
  with_unfolding_all decide

set_option maxRecDepth 100000 in
theorem scanSell_first_match_witness :
    0 < [posA, posB].length ∧ ([posA, posB] : List Trade)[0]? = some posA ∧
    "Sell Trigger"
      = (if hitsStopLoss stgC2 110 posA = true then "Stop Loss" else "Sell Trigger") := by
  have h := (scanSell_first_match stgC2 110 [posA, posB]).2 posA "Sell Trigger" 0
    (by with_unfolding_all decide)
  exact ⟨h.1, h.2.1, h.2.2.2.2⟩

theorem sma_spec_all_witness :
    calculateSMA [1, 2, 3, 4, 5] 3 3
      = some ((([1, 2, 3, 4, 5] : List ℚ).drop (([1, 2, 3, 4, 5] : List ℚ).length - 3)).sum
          / ((3 : ℕ) : ℚ)) :=
  sma_spec_all.2.1 [1, 2, 3, 4, 5] 3 3 (by norm_num) (by norm_num) (by norm_num)

set_option maxRecDepth 1000000 in
/-- Claim C4, counterexample: a fully reachable run (start, twenty-two
ticks producing two open positions, `updateSettings` lowering the cap to 1
while running, one more tick) after which `len(openPositions) = 2` exceeds
`maxConcurrentPositions = 1`. -/
theorem position_cap_violated_cex :
    runC4.isRunning = true ∧
    runC4.settings = some (applyPatch stgFlat patchC4) ∧
    (applyPatch stgFlat patchC4).maxConcurrentPositions = 1 ∧
    runC4.openPositions.length = 2 := by
  with_unfolding_all decide

set_option maxRecDepth 100000 in
theorem tick_preserves_position_cap_witness :
    (executeTick startC4 FetchResult.failure).settings = some stgFlat ∧
    (executeTick startC4 FetchResult.failure).openPositions.length
      ≤ stgFlat.maxConcurrentPositions :=
  tick_preserves_position_cap startC4 FetchResult.failure stgFlat
    (by with_unfolding_all decide) (by with_unfolding_all decide)

set_option maxRecDepth 100000 in
theorem backtest_processes_N_then_stops_witness :
    (iterTick FetchResult.failure 2 s0W5).isRunning = false ∧
    (iterTick FetchResult.failure 2 s0W5).backtestIndex = 1 := by
  have h := backtest_processes_N_then_stops s0W5 stgFlat dataW5 FetchResult.failure
    (by with_unfolding_all decide) (by with_unfolding_all decide)
    (by with_unfolding_all decide) (by norm_num [dataW5]) (by with_unfolding_all decide)
  exact ⟨h.2.2.1, h.2.2.2.1⟩

set_option maxRecDepth 100000 in
/-- Claim C6: the in-flight guard is NOT cleared on the warm-up early
return.  Evidence of the code bug: in a live session the first processed
tick returns at the warm-up gate with `isProcessingTick` still `true`, and
the next tick is therefore skipped entirely (the state is returned
unchanged) — contradicting the spec's "after every executeTick invocation
has completed ... isProcessingTick is false again". -/
theorem inflight_flag_leak :
    liveWarm.isRunning = true ∧ liveWarm.isProcessingTick = false ∧
    (executeTick liveWarm (FetchResult.success 101 1)).isProcessingTick = true ∧
    executeTick (executeTick liveWarm (FetchResult.success 101 1)) (FetchResult.success 102 2)
      = executeTick liveWarm (FetchResult.success 101 1) := by
  with_unfolding_all decide

set_option maxRecDepth 100000 in
theorem trade_conservation_witness :
    ((executeBuyLogic sBuyW stgFlat 101 7 2 1 1 1 (some 1000)).account.quote
        + (executeBuyLogic sBuyW stgFlat 101 7 2 1 1 1 (some 1000)).account.base * 101
      = sBuyW.account.quote + sBuyW.account.base * 101) ∧
    ((executeSellLogic sSellW stgFlat 110 8 1 1 1 1).account.quote
      = sSellW.account.quote + 1 * 110) := by
  constructor
  · exact (trade_conservation.1 sBuyW stgFlat 101 7 2 1 1 1 (some 1000)
      ⟨0, TradeType.BUY, 101, 7, 100 / 101, "MACD Crossover"⟩ (by norm_num)
      (by with_unfolding_all decide)).2.2.2.2
  · exact (trade_conservation.2 sSellW stgFlat 110 8 1 1 1 1
      ⟨0, TradeType.SELL, 110, 8, 1, "Stop Loss"⟩ (by with_unfolding_all decide)).2.2.1

/-- Claim C8 (amended): trade ids are unique within a single run — every
tick preserves the invariant that the trade log's ids are strictly
increasing and below the id counter, hence the ids in the log are pairwise
distinct — but `start()` clears the log and resets the id counter to 0, so
ids recur across start/stop runs of the same process (see the
counterexample). -/
theorem trade_ids_unique_within_run :
    (∀ (s : EngineState) (fetch : FetchResult),
        tradeIdOk s.trades s.tradeIdCounter →
        tradeIdOk (executeTick s fetch).trades (executeTick s fetch).tradeIdCounter)
    ∧ (∀ (s : EngineState) (stg : Settings) (bd : Option (List PricePoint)) (il : Bool)
        (f : FetchResult), s.isRunning = false →
        (start s stg bd il f).trades = [] ∧ (start s stg bd il f).tradeIdCounter = 0)
    ∧ (∀ (trs : List Trade) (cnt : ℕ), tradeIdOk trs cnt → (trs.map Trade.id).Nodup) := by
  refine ⟨executeTick_tradeIdOk, start_resets_trades, ?_⟩
  intro trs cnt h
  exact h.1.map Trade.id (fun a b hab => Nat.ne_of_lt hab)

set_option maxRecDepth 1000000 in
/-- Claim C8, counterexample: two complete start/stop runs of the same
engine each produce a trade with id 0 — two distinct trades of the same
process share an id, because `start()` resets the monotonic counter. -/
theorem trade_id_reused_across_runs_cex :
    runA.isRunning = false ∧
    runA.trades.map (fun tr => (tr.id, tr.type)) = [(0, TradeType.BUY)] ∧
    runB.trades.map (fun tr => (tr.id, tr.type)) = [(0, TradeType.BUY)] ∧
    (start runA stgFlat (some dataC8) false FetchResult.failure).tradeIdCounter = 0 := by
  with_unfolding_all decide

set_option maxRecDepth 100000 in
theorem trade_ids_unique_within_run_witness :
    (([⟨0, TradeType.BUY, 1, 0, 1, "MACD Crossover"⟩,
       ⟨1, TradeType.SELL, 2, 1, 1, "Stop Loss"⟩] : List Trade).map Trade.id).Nodup ∧
    tradeIdOk (executeTick initialEngineState FetchResult.failure).trades
      (executeTick initialEngineState FetchResult.failure).tradeIdCounter := by
  constructor
  · exact trade_ids_unique_within_run.2.2 _ 2
      ⟨by with_unfolding_all decide, by with_unfolding_all decide⟩
  · exact trade_ids_unique_within_run.1 initialEngineState FetchResult.failure
      ⟨by with_unfolding_all decide, by with_unfolding_all decide⟩

set_option maxRecDepth 100000 in
/-- Claim C9, counterexample: `start()` with an empty replay series and no
live price available FAILS the start (the engine stays idle), and with a
live price available it seeds price and chart from the live fetch — so the
empty series is treated as live mode, and a live price fetch is performed,
contrary to the claim. -/
theorem empty_replay_cex :
    (start initialEngineState stgFlat (some []) false FetchResult.failure).isRunning = false ∧
    (start initialEngineState stgFlat (some []) false (FetchResult.success 42 7)).currentPrice
      = 42 ∧
    (start initialEngineState stgFlat (some []) false (FetchResult.success 42 7)).chartData
      = [⟨7, 42, none, none, none⟩] := by
  with_unfolding_all decide

theorem empty_replay_starts_live_witness :
    (start initialEngineState stgFlat (some []) false FetchResult.failure).isRunning = false ∧
    (start initialEngineState stgFlat (some []) false (FetchResult.success 42 7)).currentPrice
      = 42 := by
  have h := empty_replay_starts_live initialEngineState stgFlat false rfl
  exact ⟨h.1, (h.2 42 7).2.1⟩

theorem stop_idempotent_noop_witness : stop initialEngineState = initialEngineState :=
  stop_idempotent_noop.2 initialEngineState rfl
